import Mathlib

/-!
Shallow embedding of the mtiarn/vpn_telegram_bot repository (promocode.py,
request.py / request_service, json_utils.py, client.py, vpn_service.py).

Conventions of the embedding:
* Python dicts persisted in the JSON stores become Lean structures; a dict
  key that may be absent becomes an `Option` field.
* Async functions are pure state transformers: a function that reads a
  store takes the stored list as an argument; a function that writes a
  store returns the new list.  The `asyncio.Lock` serialization means each
  operation sees and produces a consistent list, which is exactly this
  functional reading.
* Calls to the external 3x-ui panel and the Telegram transport are modelled
  by explicit boolean oracles: `true` means the call returned normally,
  `false` means it raised (the source catches the exception and converts it
  to a `False` return, as the functions below do).
* Timestamps are integers (milliseconds).  `_add_days_to_timestamp` adds
  `days * 86400000` milliseconds.
-/

namespace VpnBot

/-! ## Promo-code ledger (promocode.py) -/

/-- A promo-code record as persisted in promocodes.json.  `active` is
`none` when the stored dict lacks the "active" key. -/
structure PromoRec where
  code : String
  duration_days : Int
  active : Option Bool
deriving DecidableEq, Repr

/-- Embeds `promo_data.get("active", True)` (promocode.py lines 60, 75, 137). -/
def PromoRec.isActive (r : PromoRec) : Bool := r.active.getD true

/-- The in-memory `Promocode` dataclass (promocode.py lines 11-18). -/
structure Promocode where
  code : String
  duration_days : Int
  active : Bool
deriving DecidableEq, Repr

/-- Embeds `Promocode.from_dict` (promocode.py lines 26-35): the missing
"active" key defaults to `True`. -/
def Promocode.from_dict (r : PromoRec) : Promocode :=
  { code := r.code, duration_days := r.duration_days, active := r.isActive }

/-- Embeds `Promocode.to_dict` (promocode.py lines 20-24): `asdict` writes every
field, so the stored dict always carries the "active" key. -/
def Promocode.to_dict (p : Promocode) : PromoRec :=
  { code := p.code, duration_days := p.duration_days, active := some p.active }

/-- Embeds `PromocodeService.get_promocode` (promocode.py lines 51-64): scan the
ledger for the first record whose code matches and which is active
(missing flag counts as active); return it via `from_dict`, else None. -/
def get_promocode (promos : List PromoRec) (code : String) : Option Promocode :=
  match promos.find? (fun r => r.code == code && r.isActive) with
  | some r => some (Promocode.from_dict r)
  | none => none

/-- The loop shared by `use_promocode` and `deactivate_promocode`
(promocode.py lines 74-79 and 136-141): find the first record with a
matching code that is active, set its "active" key to `False`; `none`
when no active match exists (then nothing is written). -/
def markFirstActiveInactive : List PromoRec → String → Option (List PromoRec)
  | [], _ => none
  | r :: rs, code =>
    if r.code == code && r.isActive then
      some ({ r with active := some false } :: rs)
    else
      match markFirstActiveInactive rs code with
      | some rs' => some (r :: rs')
      | none => none

/-- Embeds `PromocodeService.use_promocode` (promocode.py lines 66-81): deactivate
the first active match and persist; `False` when no active match. -/
def use_promocode (promos : List PromoRec) (code : String) :
    Bool × List PromoRec :=
  match markFirstActiveInactive promos code with
  | some promos' => (true, promos')
  | none => (false, promos)

/-- Embeds `PromocodeService.deactivate_promocode` (promocode.py lines 128-143):
identical ledger effect to `use_promocode`. -/
def deactivate_promocode (promos : List PromoRec) (code : String) :
    Bool × List PromoRec :=
  match markFirstActiveInactive promos code with
  | some promos' => (true, promos')
  | none => (false, promos)

/-- Embeds `PromocodeService.add_promocode` (promocode.py lines 83-101): fail if
any record (active or not) already has this code; otherwise append
`Promocode(code, duration_days)` (active defaults to `True`). -/
def add_promocode (promos : List PromoRec) (code : String)
    (duration_days : Int) : Bool × List PromoRec :=
  if promos.any (fun r => r.code == code) then
    (false, promos)
  else
    (true, promos ++ [Promocode.to_dict
      { code := code, duration_days := duration_days, active := true }])

/-! ## JSON record store (json_utils.py) -/

/-- A JSON value, the result of a successful `json.load`. -/
inductive Json where
  | null : Json
  | bool (b : Bool) : Json
  | num (n : Int) : Json
  | str (s : String) : Json
  | arr (xs : List Json) : Json
  | obj (kvs : List (String × Json)) : Json

/-- Whether a JSON value is a list (`isinstance(data, list)`). -/
def Json.isArr : Json → Bool
  | .arr _ => true
  | _ => false

/-- Embeds `JSONDataStore._read_file` (json_utils.py lines 37-53).  The argument
is the outcome of `json.load` on the stored file: `none` models a
`JSONDecodeError` (empty or malformed file).  A decode error yields `[]`,
a non-list value yields `[]`, and a list is returned as is. -/
def JSONDataStore.read_file : Option Json → List Json
  | none => []
  | some (.arr xs) => xs
  | some _ => []

/-! ## Client data normalization (client.py, vpn_service.py lines 129-169) -/

/-- The py3xui `Client` object fields used by this repository. -/
structure XClient where
  email : String
  uuid : String
  enable : Bool
  limit_ip : Int
  total : Int
  expiry_time : Int
  up : Int
  down : Int
  flow : String
  sub_id : String
  total_gb : Int
deriving DecidableEq, Repr

/-- The `ClientData` dataclass (client.py lines 5-17). -/
structure ClientData where
  max_devices : Int
  traffic_total : Int
  traffic_remaining : Int
  traffic_used : Int
  traffic_up : Int
  traffic_down : Int
  expiry_time : Int
deriving DecidableEq, Repr

/-- Embeds `VPNService.get_client_data` (vpn_service.py lines 129-169).
`apiOk = false` models `api.client.get_by_email` raising (the except
branch returns None); `res` is the value it returned otherwise.
Sentinels: device limit 0 becomes -1; expiry 0 becomes -1; total quota
at most 0 makes both total and remaining -1, otherwise remaining is
total minus (up + down); used is up + down. -/
def get_client_data (apiOk : Bool) (res : Option XClient) :
    Option ClientData :=
  if !apiOk then none
  else
    match res with
    | none => none
    | some client =>
      let limit_ip := client.limit_ip
      let max_devices : Int := if limit_ip == 0 then -1 else limit_ip
      let traffic_total := client.total
      let expiry_time : Int :=
        if client.expiry_time == 0 then -1 else client.expiry_time
      let pair : Int × Int :=
        if traffic_total ≤ 0 then (-1, -1)
        else (traffic_total - (client.up + client.down), traffic_total)
      let traffic_used := client.up + client.down
      some
        { max_devices := max_devices
          traffic_total := pair.2
          traffic_remaining := pair.1
          traffic_used := traffic_used
          traffic_up := client.up
          traffic_down := client.down
          expiry_time := expiry_time }

/-! ## Request ledger (request.py / the request_service module) -/

/-- The free-form `details` mapping of a request. -/
abbrev Details := List (String × String)

/-- The `Request` dataclass (request.py lines 12-21); the persisted dict
has the same shape (`to_dict` is `asdict`). -/
structure Request where
  request_id : String
  user_id : Int
  details : Details
  status : String
  timestamp : Int
deriving DecidableEq, Repr

/-- Construction of the Python dataclass `Request`: every field has no
default, so `__init__` raises `TypeError` when one is not supplied.  A
missing keyword argument is modelled as `none`; the result is `none`
exactly when construction raises. -/
def Request.init (request_id : Option String) (user_id : Int)
    (details : Details) (status : String) (timestamp : Int) :
    Option Request :=
  match request_id with
  | none => none
  | some rid =>
    some { request_id := rid, user_id := user_id, details := details,
           status := status, timestamp := timestamp }

/-- Embeds `RequestService.create_request` (request.py lines 56-71): append the
record and persist; `True` unless the store itself raises (the store is
modelled as reliable, which only strengthens claims about failures). -/
def create_request (reqs : List Request) (r : Request) :
    Bool × List Request :=
  (true, reqs ++ [r])

/-- Embeds `RequestService.get_request` (request.py lines 73-90): first record
with a matching id, else None. -/
def get_request (reqs : List Request) (request_id : String) :
    Option Request :=
  reqs.find? (fun r => r.request_id == request_id)

/-- The loop of `update_request_status` (request.py lines 101-107): set
the status of the first record with a matching id; `none` when no record
matches (then nothing is written). -/
def setStatusFirst : List Request → String → String → Option (List Request)
  | [], _, _ => none
  | r :: rs, rid, ns =>
    if r.request_id == rid then
      some ({ r with status := ns } :: rs)
    else
      match setStatusFirst rs rid ns with
      | some rs' => some (r :: rs')
      | none => none

/-- Embeds `RequestService.update_request_status` (request.py lines 92-112). -/
def update_request_status (reqs : List Request) (request_id : String)
    (new_status : String) : Bool × List Request :=
  match setStatusFirst reqs request_id new_status with
  | some reqs' => (true, reqs')
  | none => (false, reqs)

/-- Embeds `RequestService.list_requests` (request.py lines 114-132) with a
status filter. -/
def list_requests (reqs : List Request) (status_filter : String) :
    List Request :=
  reqs.filter (fun r => r.status == status_filter)

/-! ## Workflow controller (vpn_service.py) -/

/-- Embeds `VPNService.send_message_to_user` (vpn_service.py lines 420-435):
`bot.send_message` either returns (True) or raises; the exception is
caught inside this function and converted to False, so the caller never
sees an exception.  `sendOk` is the transport oracle. -/
def send_message_to_user (sendOk : Bool) : Bool := sendOk

/-- Embeds `VPNService.respond_to_request` (vpn_service.py lines 394-418): look
the request up; if absent return False.  Otherwise call
`send_message_to_user` — its boolean result is discarded (line 410 does
not bind or test it) — then set the status to "completed" and return
True. -/
def respond_to_request (reqs : List Request) (request_id : String)
    (sendOk : Bool) : Bool × List Request :=
  match get_request reqs request_id with
  | none => (false, reqs)
  | some _req =>
    let _sent := send_message_to_user sendOk
    let statusUpdate := update_request_status reqs request_id "completed"
    (true, statusUpdate.2)

/-! ## Subscription engine (vpn_service.py) -/

/-- The local `User` mapping record (vpn_service.py lines 17-33). -/
structure UserRec where
  user_id : Int
  vpn_id : String
deriving DecidableEq, Repr

/-- Embeds `VPNService.get_user` (vpn_service.py lines 78-91): first record with
a matching user_id. -/
def get_user (users : List UserRec) (user_id : Int) : Option UserRec :=
  users.find? (fun u => u.user_id == user_id)

/-- The loop of `save_user` (vpn_service.py lines 99-105): replace the
first record with the same user_id. -/
def replaceUserFirst : List UserRec → UserRec → Option (List UserRec)
  | [], _ => none
  | u :: us, v =>
    if u.user_id == v.user_id then
      some (v :: us)
    else
      match replaceUserFirst us v with
      | some us' => some (u :: us')
      | none => none

/-- Embeds `VPNService.save_user` (vpn_service.py lines 93-109): update in place
when the user exists, otherwise append. -/
def save_user (users : List UserRec) (u : UserRec) : List UserRec :=
  match replaceUserFirst users u with
  | some users' => users'
  | none => users ++ [u]

/-- Outcome oracles for the external 3x-ui panel.  Each flag tells
whether the corresponding API call returns normally (`true`) or raises
(`false`); the source converts every such exception into a boolean or
None result. -/
structure ApiOracle where
  existsOk : Bool
  getOk : Bool
  updateOk : Bool
  createOk : Bool
deriving DecidableEq, Repr

/-- Embeds `api.client.get_by_email(str(user_id))`: first panel client whose
email is the decimal user id. -/
def find_client (panel : List XClient) (email : String) : Option XClient :=
  panel.find? (fun c => c.email == email)

/-- Embeds `VPNService.is_client_exists` (vpn_service.py lines 111-127): an API
exception is caught and yields None (treated as the client being absent). -/
def is_client_exists (panel : List XClient) (o : ApiOracle)
    (user_id : Int) : Option XClient :=
  if o.existsOk then find_client panel (toString user_id) else none

/-- Embeds `VPNService._add_days_to_timestamp` (vpn_service.py lines 445-455) in
exact arithmetic: a day is 86400000 milliseconds. -/
def add_days_to_timestamp (timestamp : Int) (days : Int) : Int :=
  timestamp + days * 86400000

/-- The panel write performed by `api.client.update(inbound_id,
client.id, client)`: the panel replaces the record of the client that was
fetched.  The panel keys clients of the single inbound by unique email,
so the write is modelled as replacing the first record with that email. -/
def panelReplace : List XClient → String → XClient → List XClient
  | [], _, _ => []
  | c :: cs, email, c' =>
    if c.email == email then c' :: cs
    else c :: panelReplace cs email c'

/-- Embeds `VPNService.update_client` (vpn_service.py lines 210-267).  Fetch the
client by email (an exception there, `getOk = false`, is caught and gives
False); absent client gives False.  Device limit: additive unless
`replace_devices`.  Expiry: from `max(current expiry, now)` unless
`replace_duration`, in which case from `now`; then `duration` days are
added.  The mutated client is written back in one update call; if that
call raises (`updateOk = false`) the panel is unchanged and the result is
False. -/
def update_client (panel : List XClient) (now : Int) (o : ApiOracle)
    (pfx : String) (user : UserRec) (devices duration : Int)
    (replace_devices replace_duration : Bool) : Bool × List XClient :=
  if !o.getOk then (false, panel)
  else
    match find_client panel (toString user.user_id) with
    | none => (false, panel)
    | some client =>
      let devs := if !replace_devices then client.limit_ip + devices
                  else devices
      let expiry_time_to_use :=
        if !replace_duration then max client.expiry_time now else now
      let expiry_time := add_days_to_timestamp expiry_time_to_use duration
      let client' : XClient :=
        { client with
          enable := true
          expiry_time := expiry_time
          flow := "xtls-rprx-vision"
          limit_ip := devs
          sub_id := pfx ++ toString user.user_id
          total_gb := 0 }
      if o.updateOk then
        (true, panelReplace panel (toString user.user_id) client')
      else (false, panel)

/-- Embeds `VPNService.create_client` (vpn_service.py lines 171-208) with the
default keyword arguments used by its callers: build a brand-new client
and add it to the inbound; if the add call raises (`createOk = false`)
the panel is unchanged and the result is False.  `pfx` is the configured
subscription tag put before the user id. -/
def create_client (panel : List XClient) (now : Int) (o : ApiOracle)
    (pfx : String) (user : UserRec) (devices duration : Int) :
    Bool × List XClient :=
  let new_client : XClient :=
    { email := toString user.user_id
      uuid := user.vpn_id
      enable := true
      limit_ip := devices
      total := 0
      expiry_time := add_days_to_timestamp now duration
      up := 0
      down := 0
      flow := "xtls-rprx-vision"
      sub_id := pfx ++ toString user.user_id
      total_gb := 0 }
  if o.createOk then (true, panel ++ [new_client]) else (false, panel)

/-- The complete mutable state the service touches: the three local JSON
stores and the external panel. -/
structure VState where
  users : List UserRec
  promos : List PromoRec
  requests : List Request
  panel : List XClient
deriving DecidableEq, Repr

/-- Embeds `VPNService.extend_subscription` (vpn_service.py lines 301-321):
requires an existing local user record, then updates with
`replace_devices=True, replace_duration=False`. -/
def extend_subscription (st : VState) (now : Int) (o : ApiOracle)
    (pfx : String) (user_id : Int) (devices duration : Int) :
    Bool × VState :=
  match get_user st.users user_id with
  | none => (false, st)
  | some user =>
    let r := update_client st.panel now o pfx user devices duration
      true false
    (r.1, { st with panel := r.2 })

/-- Embeds `VPNService.create_subscription` (vpn_service.py lines 269-299):
ensure the local user record, then create (client absent) or fully
replace (client present). -/
def create_subscription (st : VState) (now : Int) (o : ApiOracle)
    (pfx : String) (user_id : Int) (devices duration : Int) :
    Bool × VState :=
  let user : UserRec :=
    match get_user st.users user_id with
    | some u => u
    | none => { user_id := user_id, vpn_id := "vpn_" ++ toString user_id }
  let users' :=
    match get_user st.users user_id with
    | some _ => st.users
    | none => save_user st.users user
  let st := { st with users := users' }
  match is_client_exists st.panel o user_id with
  | none =>
    let r := create_client st.panel now o pfx user devices duration
    (r.1, { st with panel := r.2 })
  | some _ =>
    let r := update_client st.panel now o pfx user devices duration
      true true
    (r.1, { st with panel := r.2 })

/-- Embeds `VPNService.apply_promocode` (vpn_service.py lines 323-370): look the
code up (inactive or absent gives False); ensure the local user record;
if the external client exists, update with `devices=0,
replace_devices=False, replace_duration=False`, else create with one
device; only when the external mutation succeeded, consume the code via
`use_promocode` and return True. -/
def apply_promocode (st : VState) (now : Int) (o : ApiOracle)
    (pfx : String) (user_id : Int) (code : String) : Bool × VState :=
  match get_promocode st.promos code with
  | none => (false, st)
  | some promo =>
    let user : UserRec :=
      match get_user st.users user_id with
      | some u => u
      | none => { user_id := user_id, vpn_id := "vpn_" ++ toString user_id }
    let users' :=
      match get_user st.users user_id with
      | some _ => st.users
      | none => save_user st.users user
    let st := { st with users := users' }
    match is_client_exists st.panel o user_id with
    | some _ =>
      let r := update_client st.panel now o pfx user 0 promo.duration_days
        false false
      if r.1 then
        let consumed := use_promocode st.promos code
        (true, { st with panel := r.2, promos := consumed.2 })
      else (false, { st with panel := r.2 })
    | none =>
      let r := create_client st.panel now o pfx user 1 promo.duration_days
      if r.1 then
        let consumed := use_promocode st.promos code
        (true, { st with panel := r.2, promos := consumed.2 })
      else (false, { st with panel := r.2 })

/-- Embeds `VPNService.handle_user_request` (vpn_service.py lines 372-392): the
source constructs `Request(user_id=..., details=..., status="pending",
timestamp=...)` without a `request_id` keyword, so the dataclass raises
`TypeError`; the surrounding except block returns False and nothing is
written. -/
def handle_user_request (reqs : List Request) (user_id : Int)
    (details : Details) (now : Int) : Bool × List Request :=
  match Request.init none user_id details "pending" now with
  | none => (false, reqs)
  | some r => create_request reqs r

/-! ## Helper lemmas -/

theorem find?_append_left_none {α} (p : α → Bool) (l1 l2 : List α)
    (h : ∀ x ∈ l1, p x = false) : (l1 ++ l2).find? p = l2.find? p := by
  induction l1 with
  | nil => rfl
  | cons a l ih =>
    rw [List.cons_append, List.find?_cons_of_neg]
    · exact ih (fun x hx => h x (List.mem_cons_of_mem a hx))
    · simp [h a (List.mem_cons_self a l)]

theorem map_eq_self_of {α} (f : α → α) (l : List α)
    (h : ∀ x ∈ l, f x = x) : l.map f = l := by
  induction l with
  | nil => rfl
  | cons a l ih =>
    simp only [List.map_cons, h a (List.mem_cons_self a l)]
    rw [ih (fun x hx => h x (List.mem_cons_of_mem a hx))]

/-- Deactivation of every record carrying the given code. -/
def markCode (code : String) (r : PromoRec) : PromoRec :=
  if r.code == code then { r with active := some false } else r

theorem markFirstActiveInactive_cons (r : PromoRec) (rs : List PromoRec)
    (code : String) :
    markFirstActiveInactive (r :: rs) code =
      if r.code == code && r.isActive then
        some ({ r with active := some false } :: rs)
      else (markFirstActiveInactive rs code).map (fun rs' => r :: rs') := by
  by_cases h : (r.code == code && r.isActive) = true
  · simp [markFirstActiveInactive, h]
  · simp only [markFirstActiveInactive, if_neg h]
    cases markFirstActiveInactive rs code <;> simp

theorem markFirstActiveInactive_eq_none_iff (promos : List PromoRec)
    (code : String) :
    markFirstActiveInactive promos code = none ↔
      promos.any (fun r => r.code == code && r.isActive) = false := by
  induction promos with
  | nil => simp [markFirstActiveInactive]
  | cons r rs ih =>
    by_cases hmatch : (r.code == code && r.isActive) = true
    · simp [markFirstActiveInactive_cons, hmatch]
    · have hm : (r.code == code && r.isActive) = false := by
        cases hb : (r.code == code && r.isActive) with
        | true => exact absurd hb hmatch
        | false => rfl
      simp [markFirstActiveInactive_cons, hm, ih]

theorem markFirstActiveInactive_some_any (promos : List PromoRec)
    (code : String) (out : List PromoRec)
    (h : markFirstActiveInactive promos code = some out) :
    promos.any (fun r => r.code == code && r.isActive) = true := by
  cases hb : promos.any (fun r => r.code == code && r.isActive) with
  | true => rfl
  | false =>
    rw [(markFirstActiveInactive_eq_none_iff promos code).mpr hb] at h
    exact absurd h (by simp)

theorem markFirstActiveInactive_some_map (promos : List PromoRec)
    (code : String) (out : List PromoRec)
    (hnd : (promos.map PromoRec.code).Nodup)
    (h : markFirstActiveInactive promos code = some out) :
    out = promos.map (markCode code) := by
  induction promos generalizing out with
  | nil => simp [markFirstActiveInactive] at h
  | cons r rs ih =>
    simp only [List.map_cons, List.nodup_cons] at hnd
    rw [markFirstActiveInactive_cons] at h
    by_cases hmatch : (r.code == code && r.isActive) = true
    · rw [if_pos hmatch] at h
      injection h with h
      have hcode : r.code = code := by
        simp only [Bool.and_eq_true, beq_iff_eq] at hmatch
        exact hmatch.1
      have htail : rs.map (markCode code) = rs := by
        refine map_eq_self_of _ _ (fun x hx => ?_)
        have hxne : x.code ≠ code := by
          intro hxc
          exact hnd.1 (hcode ▸ hxc ▸ List.mem_map_of_mem PromoRec.code hx)
        simp [markCode, hxne]
      rw [← h, List.map_cons, htail, markCode, if_pos (by simp [hcode])]
    · rw [if_neg hmatch] at h
      cases hrec : markFirstActiveInactive rs code with
      | none => rw [hrec] at h; exact absurd h (by simp)
      | some rs' =>
        rw [hrec] at h
        injection h with h
        have hrne : r.code ≠ code := by
          intro hc
          have hany := markFirstActiveInactive_some_any rs code rs' hrec
          obtain ⟨x, hx, hxp⟩ := List.any_eq_true.mp hany
          have hxc : x.code = code := by
            simp only [Bool.and_eq_true, beq_iff_eq] at hxp
            exact hxp.1
          exact hnd.1 (hc ▸ hxc ▸ List.mem_map_of_mem PromoRec.code hx)
        rw [← h, ih rs' hnd.2 hrec, List.map_cons]
        have : markCode code r = r := by simp [markCode, hrne]
        rw [this]

theorem get_promocode_map_markCode (promos : List PromoRec) (code : String) :
    get_promocode (promos.map (markCode code)) code = none := by
  unfold get_promocode
  rw [List.find?_eq_none.mpr]
  intro x hx
  obtain ⟨y, _, rfl⟩ := List.mem_map.mp hx
  by_cases hc : y.code = code
  · simp [markCode, hc, PromoRec.isActive]
  · simp [markCode, hc]

theorem use_promocode_fst_eq_any (promos : List PromoRec) (code : String) :
    (use_promocode promos code).1 =
      promos.any (fun r => r.code == code && r.isActive) := by
  unfold use_promocode
  cases h : markFirstActiveInactive promos code with
  | none =>
    simp [(markFirstActiveInactive_eq_none_iff promos code).mp h]
  | some out =>
    simp [markFirstActiveInactive_some_any promos code out h]

theorem use_promocode_snd_of_some (promos : List PromoRec) (code : String)
    (hnd : (promos.map PromoRec.code).Nodup)
    (h : (use_promocode promos code).1 = true) :
    (use_promocode promos code).2 = promos.map (markCode code) := by
  unfold use_promocode at h ⊢
  cases hrec : markFirstActiveInactive promos code with
  | none => rw [hrec] at h; exact absurd h (by simp)
  | some out =>
    simp only [hrec]
    exact markFirstActiveInactive_some_map promos code out hnd hrec

theorem use_promocode_snd_of_false (promos : List PromoRec) (code : String)
    (h : (use_promocode promos code).1 = false) :
    (use_promocode promos code).2 = promos := by
  unfold use_promocode at h ⊢
  cases hrec : markFirstActiveInactive promos code with
  | none => simp [hrec]
  | some out => rw [hrec] at h; exact absurd h (by simp)

theorem get_promocode_some_any (promos : List PromoRec) (code : String)
    (p : Promocode) (h : get_promocode promos code = some p) :
    promos.any (fun r => r.code == code && r.isActive) = true := by
  unfold get_promocode at h
  cases hf : promos.find? (fun r => r.code == code && r.isActive) with
  | none => rw [hf] at h; exact absurd h (by simp)
  | some r =>
    have hp := List.find?_some hf
    exact List.any_eq_true.mpr ⟨r, List.mem_of_find?_eq_some hf,
      by simpa using hp⟩

theorem any_map_markCode (promos : List PromoRec) (code : String) :
    (promos.map (markCode code)).any
      (fun r => r.code == code && r.isActive) = false := by
  cases hb : (promos.map (markCode code)).any
      (fun r => r.code == code && r.isActive) with
  | false => rfl
  | true =>
    obtain ⟨x, hx, hxp⟩ := List.any_eq_true.mp hb
    obtain ⟨y, _, rfl⟩ := List.mem_map.mp hx
    by_cases hc : y.code = code
    · simp [markCode, hc, PromoRec.isActive] at hxp
    · simp [markCode, hc] at hxp

theorem deactivate_promocode_fst_eq_any (promos : List PromoRec)
    (code : String) :
    (deactivate_promocode promos code).1 =
      promos.any (fun r => r.code == code && r.isActive) := by
  unfold deactivate_promocode
  cases h : markFirstActiveInactive promos code with
  | none =>
    simp [(markFirstActiveInactive_eq_none_iff promos code).mp h]
  | some out =>
    simp [markFirstActiveInactive_some_any promos code out h]

theorem find_client_panelReplace (panel : List XClient) (e : String)
    (c c' : XClient) (hfind : find_client panel e = some c)
    (hc : c'.email = e) :
    find_client (panelReplace panel e c') e = some c' := by
  induction panel with
  | nil => simp [find_client] at hfind
  | cons a l ih =>
    by_cases ha : (a.email == e) = true
    · have h1 : panelReplace (a :: l) e c' = c' :: l := by
        simp [panelReplace, ha]
      rw [h1]
      unfold find_client
      exact List.find?_cons_of_pos _ (by simp [hc])
    · have h1 : panelReplace (a :: l) e c' = a :: panelReplace l e c' := by
        simp [panelReplace, ha]
      have hfind' : find_client l e = some c := by
        unfold find_client at hfind ⊢
        rwa [List.find?_cons_of_neg _ (by exact ha)] at hfind
      rw [h1]
      unfold find_client at ih ⊢
      rw [List.find?_cons_of_neg _ (by exact ha)]
      exact ih hfind'

theorem update_client_fst_imp_updateOk (panel : List XClient) (now : Int)
    (o : ApiOracle) (pfx : String) (user : UserRec)
    (devices duration : Int) (rd rr : Bool)
    (h : (update_client panel now o pfx user devices duration rd rr).1 =
      true) : o.updateOk = true := by
  unfold update_client at h
  cases hg : o.getOk with
  | false => rw [hg] at h; simp at h
  | true =>
    rw [hg] at h
    simp only [Bool.not_true, Bool.false_eq_true, if_false] at h
    cases hf : find_client panel (toString user.user_id) with
    | none => rw [hf] at h; simp at h
    | some cl =>
      rw [hf] at h
      cases hu : o.updateOk with
      | true => rfl
      | false => rw [hu] at h; simp at h

theorem create_client_fst (panel : List XClient) (now : Int)
    (o : ApiOracle) (pfx : String) (user : UserRec)
    (devices duration : Int) :
    (create_client panel now o pfx user devices duration).1 =
      o.createOk := by
  unfold create_client
  cases o.createOk <;> simp

/-! ## Claim theorems -/

/-- Claim C1 (code bug): with one pending request on file and a failing
notification send, respond_to_request still returns True and advances
the request status to "completed".  The source discards the boolean
result of send_message_to_user (vpn_service.py line 410), and
send_message_to_user swallows the transport exception, so the status
update always runs. -/
theorem respond_to_request_completes_despite_failed_send :
    respond_to_request
      [{ request_id := "r1", user_id := 7, details := [],
         status := "pending", timestamp := 0 }] "r1" false =
    (true,
      [{ request_id := "r1", user_id := 7, details := [],
         status := "completed", timestamp := 0 }]) := by
  rfl

/-- Claim C2 (code bug): handle_user_request always returns False and
never appends a request record, because the source constructs the
Request dataclass without the required request_id field; the resulting
TypeError is caught by the surrounding except block. -/
theorem handle_user_request_always_fails (reqs : List Request)
    (user_id : Int) (details : Details) (now : Int) :
    handle_user_request reqs user_id details now = (false, reqs) := rfl

/-- Claim C6: adding a code to a ledger that does not yet contain it
succeeds, a second add of the same code fails and writes nothing, and
the record created by the first add keeps its duration. -/
theorem add_promocode_unique (promos : List PromoRec) (c : String)
    (d d2 : Int) (h : ∀ r ∈ promos, r.code ≠ c) :
    (add_promocode promos c d).1 = true ∧
    (add_promocode (add_promocode promos c d).2 c d2).1 = false ∧
    (add_promocode (add_promocode promos c d).2 c d2).2 =
      (add_promocode promos c d).2 ∧
    (add_promocode (add_promocode promos c d).2 c d2).2.find?
        (fun r => r.code == c) =
      some { code := c, duration_days := d, active := some true } := by
  have hany : promos.any (fun r => r.code == c) = false := by
    cases hb : promos.any (fun r => r.code == c) with
    | false => rfl
    | true =>
      obtain ⟨x, hx, hxp⟩ := List.any_eq_true.mp hb
      exact absurd (by simpa using hxp) (h x hx)
  have h1 : add_promocode promos c d =
      (true, promos ++ [(⟨c, d, some true⟩ : PromoRec)]) := by
    simp [add_promocode, hany, Promocode.to_dict]
  have hany2 : ((promos ++ [(⟨c, d, some true⟩ : PromoRec)]).any
      (fun r => r.code == c)) = true := by
    simp
  have h2 : add_promocode (promos ++ [(⟨c, d, some true⟩ : PromoRec)]) c d2 =
      (false, promos ++ [(⟨c, d, some true⟩ : PromoRec)]) := by
    simp [add_promocode, hany2]
  have hfind : ((promos ++ [(⟨c, d, some true⟩ : PromoRec)]).find?
      (fun r => r.code == c)) = some (⟨c, d, some true⟩ : PromoRec) := by
    rw [find?_append_left_none _ _ _ (fun x hx => by simpa using h x hx)]
    simp
  exact ⟨by rw [h1], by rw [h1, h2], by rw [h1, h2], by rw [h1, h2]; exact hfind⟩

/-- Witness for C6 at a concrete input. -/
theorem add_promocode_unique_witness :
    (∀ r ∈ ([] : List PromoRec), r.code ≠ "A") ∧
    (add_promocode [] "A" 30).1 = true ∧
    (add_promocode (add_promocode [] "A" 30).2 "A" 7).1 = false :=
  ⟨fun r hr => absurd hr (List.not_mem_nil r),
   (add_promocode_unique [] "A" 30 7
     (fun r hr => absurd hr (List.not_mem_nil r))).1,
   (add_promocode_unique [] "A" 30 7
     (fun r hr => absurd hr (List.not_mem_nil r))).2.1⟩

/-- Claim C7: on a ledger with pairwise distinct codes, use_promocode
succeeds exactly when an active record with the code exists; on success
the ledger is persisted with that record deactivated, a subsequent
lookup returns None, and a second redeem fails; on failure the ledger is
unchanged. -/
theorem use_promocode_spec (promos : List PromoRec) (c : String)
    (hnd : (promos.map PromoRec.code).Nodup) :
    ((use_promocode promos c).1 = true ↔
      ∃ r ∈ promos, r.code = c ∧ r.isActive = true) ∧
    ((use_promocode promos c).1 = true →
      (use_promocode promos c).2 = promos.map (markCode c) ∧
      get_promocode (use_promocode promos c).2 c = none ∧
      (use_promocode (use_promocode promos c).2 c).1 = false) ∧
    ((use_promocode promos c).1 = false →
      (use_promocode promos c).2 = promos) := by
  refine ⟨?_, ?_, use_promocode_snd_of_false promos c⟩
  · rw [use_promocode_fst_eq_any, List.any_eq_true]
    constructor
    · rintro ⟨r, hr, hp⟩
      exact ⟨r, hr, by simpa using hp⟩
    · rintro ⟨r, hr, h1, h2⟩
      exact ⟨r, hr, by simp [h1, h2]⟩
  · intro htrue
    have hmap := use_promocode_snd_of_some promos c hnd htrue
    refine ⟨hmap, ?_, ?_⟩
    · rw [hmap]
      exact get_promocode_map_markCode promos c
    · rw [hmap, use_promocode_fst_eq_any]
      exact any_map_markCode promos c

/-- Witness for C7 at a concrete input. -/
theorem use_promocode_spec_witness :
    (([(⟨"A", 3, some true⟩ : PromoRec)].map PromoRec.code).Nodup) ∧
    (use_promocode [(⟨"A", 3, some true⟩ : PromoRec)] "A").1 = true ∧
    get_promocode
      (use_promocode [(⟨"A", 3, some true⟩ : PromoRec)] "A").2 "A" =
      none := by
  have hnd : (([(⟨"A", 3, some true⟩ : PromoRec)]).map
      PromoRec.code).Nodup := by simp
  have h := use_promocode_spec [(⟨"A", 3, some true⟩ : PromoRec)] "A" hnd
  have htrue : (use_promocode [(⟨"A", 3, some true⟩ : PromoRec)] "A").1 =
      true := h.1.mpr ⟨_, List.mem_singleton_self _, rfl, rfl⟩
  exact ⟨hnd, htrue, (h.2.1 htrue).2.1⟩

/-- Claim C8: a decode error or a non-list value is read as the empty
list, and a well-formed list is returned as is. -/
theorem read_file_lenient :
    JSONDataStore.read_file none = [] ∧
    (∀ j : Json, j.isArr = false → JSONDataStore.read_file (some j) = []) ∧
    (∀ xs : List Json, JSONDataStore.read_file (some (Json.arr xs)) = xs) := by
  refine ⟨rfl, ?_, fun xs => rfl⟩
  intro j hj
  cases j with
  | arr xs => simp [Json.isArr] at hj
  | null => rfl
  | bool b => rfl
  | num n => rfl
  | str s => rfl
  | obj kvs => rfl

/-- Witness for C8 at a concrete input. -/
theorem read_file_lenient_witness :
    (Json.num 3).isArr = false ∧
    JSONDataStore.read_file (some (Json.num 3)) = [] :=
  ⟨rfl, read_file_lenient.2.1 (Json.num 3) rfl⟩

/-- Claim C9: get_client_data returns None when the panel has no client
(or the API call raises), and otherwise normalizes sentinels: device
limit 0 becomes -1, expiry 0 becomes -1, a non-positive total quota
gives -1 for both total and remaining, otherwise remaining is total
minus (up + down); used is up + down. -/
theorem get_client_data_normalizes (c : XClient) :
    get_client_data true none = none ∧
    get_client_data false (some c) = none ∧
    get_client_data true (some c) = some
      { max_devices := if c.limit_ip = 0 then -1 else c.limit_ip
        traffic_total := if c.total ≤ 0 then -1 else c.total
        traffic_remaining :=
          if c.total ≤ 0 then -1 else c.total - (c.up + c.down)
        traffic_used := c.up + c.down
        traffic_up := c.up
        traffic_down := c.down
        expiry_time := if c.expiry_time = 0 then -1 else c.expiry_time } := by
  refine ⟨rfl, rfl, ?_⟩
  by_cases h1 : c.limit_ip = 0 <;> by_cases h2 : c.total ≤ 0 <;>
    by_cases h3 : c.expiry_time = 0 <;>
    simp [get_client_data, h1, h2, h3]

/-- Claim C10: a stored promo record lacking the "active" key is treated
as active by lookup, redeem, and deactivate alike. -/
theorem promo_missing_active_defaults_true (promos : List PromoRec)
    (c : String) (rec : PromoRec) (hmem : rec ∈ promos)
    (hcode : rec.code = c) (hmiss : rec.active = none)
    (hnd : (promos.map PromoRec.code).Nodup) :
    get_promocode promos c = some
      { code := c, duration_days := rec.duration_days, active := true } ∧
    (use_promocode promos c).1 = true ∧
    (deactivate_promocode promos c).1 = true := by
  have hact : rec.isActive = true := by simp [PromoRec.isActive, hmiss]
  have hfind : promos.find? (fun r => r.code == c && r.isActive) =
      some rec := by
    induction promos with
    | nil => cases hmem
    | cons a l ih =>
      simp only [List.map_cons, List.nodup_cons] at hnd
      rcases List.mem_cons.mp hmem with rfl | hmem'
      · exact List.find?_cons_of_pos _ (by simp [hcode, hact])
      · have hane : a.code ≠ c := by
          intro hac
          exact hnd.1 (hac ▸ hcode ▸ List.mem_map_of_mem PromoRec.code hmem')
        rw [List.find?_cons_of_neg _ (by simp [hane])]
        exact ih hmem' hnd.2
  refine ⟨?_, ?_, ?_⟩
  · unfold get_promocode
    rw [hfind]
    simp [Promocode.from_dict, hcode, hact]
  · rw [use_promocode_fst_eq_any]
    exact List.any_eq_true.mpr ⟨rec, hmem, by simp [hcode, hact]⟩
  · rw [deactivate_promocode_fst_eq_any]
    exact List.any_eq_true.mpr ⟨rec, hmem, by simp [hcode, hact]⟩

/-- Claim C4: updating an existing client with replace_duration=False
sets the new expiry to max(current expiry, now) plus duration days, for
any replace_devices flag: an active subscription is extended from its
expiry and never shortened, a lapsed one is extended from now. -/
theorem update_client_merge_duration (panel : List XClient) (now : Int)
    (o : ApiOracle) (pfx : String) (user : UserRec)
    (devices duration : Int) (rd : Bool) (c : XClient)
    (hget : o.getOk = true) (hupd : o.updateOk = true)
    (hfind : find_client panel (toString user.user_id) = some c) :
    (update_client panel now o pfx user devices duration rd false).1 =
      true ∧
    ∃ c', find_client
        (update_client panel now o pfx user devices duration rd false).2
        (toString user.user_id) = some c' ∧
      c'.expiry_time = max c.expiry_time now + duration * 86400000 ∧
      (now < c.expiry_time →
        c'.expiry_time = c.expiry_time + duration * 86400000) ∧
      (c.expiry_time ≤ now →
        c'.expiry_time = now + duration * 86400000) := by
  have hemail : c.email = toString user.user_id := by
    have hp := List.find?_some hfind
    simpa using hp
  have heq : update_client panel now o pfx user devices duration rd false =
      (true, panelReplace panel (toString user.user_id)
        { c with
          enable := true
          expiry_time := add_days_to_timestamp (max c.expiry_time now)
            duration
          flow := "xtls-rprx-vision"
          limit_ip := if !rd then c.limit_ip + devices else devices
          sub_id := pfx ++ toString user.user_id
          total_gb := 0 }) := by
    simp [update_client, hget, hupd, hfind]
  rw [heq]
  refine ⟨rfl, _, find_client_panelReplace panel _ c _ hfind hemail, ?_, ?_, ?_⟩
  · simp [add_days_to_timestamp]
  · intro h
    simp [add_days_to_timestamp, max_eq_left (le_of_lt h)]
  · intro h
    simp [add_days_to_timestamp, max_eq_right h]

/-- Witness for C4 at a concrete input: an active client (expiry 100
days after epoch, now = day 50) extended by 10 days keeps its expiry
base. -/
theorem update_client_merge_duration_witness :
    (update_client
      [(⟨"7", "u", true, 1, 0, 8640000000, 0, 0, "f", "s", 0⟩ : XClient)]
      4320000000 (⟨true, true, true, true⟩ : ApiOracle) "p" (⟨7, "u"⟩ : UserRec)
      0 10 true false).1 = true ∧
    ∃ c', find_client
        (update_client
          [(⟨"7", "u", true, 1, 0, 8640000000, 0, 0, "f", "s", 0⟩ : XClient)]
          4320000000 (⟨true, true, true, true⟩ : ApiOracle) "p"
          (⟨7, "u"⟩ : UserRec) 0 10 true false).2 "7" = some c' ∧
      c'.expiry_time = 8640000000 + 10 * 86400000 := by
  have h := update_client_merge_duration
    [(⟨"7", "u", true, 1, 0, 8640000000, 0, 0, "f", "s", 0⟩ : XClient)]
    4320000000 (⟨true, true, true, true⟩ : ApiOracle) "p" (⟨7, "u"⟩ : UserRec)
    0 10 true (⟨"7", "u", true, 1, 0, 8640000000, 0, 0, "f", "s", 0⟩ : XClient)
    rfl rfl (by decide)
  obtain ⟨h1, c', hfindc, _, hlt, _⟩ := h
  exact ⟨h1, c', hfindc, hlt (by decide)⟩

/-- Claim C5: updating an existing client with replace_devices=True and
replace_duration=True writes back exactly the requested device limit and
an expiry of now plus duration days, irrespective of the prior state. -/
theorem update_client_replace_resets (panel : List XClient) (now : Int)
    (o : ApiOracle) (pfx : String) (user : UserRec)
    (devices duration : Int) (c : XClient)
    (hget : o.getOk = true) (hupd : o.updateOk = true)
    (hfind : find_client panel (toString user.user_id) = some c) :
    (update_client panel now o pfx user devices duration true true).1 =
      true ∧
    ∃ c', find_client
        (update_client panel now o pfx user devices duration true true).2
        (toString user.user_id) = some c' ∧
      c'.limit_ip = devices ∧
      c'.expiry_time = now + duration * 86400000 := by
  have hemail : c.email = toString user.user_id := by
    have hp := List.find?_some hfind
    simpa using hp
  have heq : update_client panel now o pfx user devices duration true true =
      (true, panelReplace panel (toString user.user_id)
        { c with
          enable := true
          expiry_time := add_days_to_timestamp now duration
          flow := "xtls-rprx-vision"
          limit_ip := devices
          sub_id := pfx ++ toString user.user_id
          total_gb := 0 }) := by
    simp [update_client, hget, hupd, hfind]
  rw [heq]
  exact ⟨rfl, _, find_client_panelReplace panel _ c _ hfind hemail, rfl, rfl⟩

/-- Witness for C5 at a concrete input. -/
theorem update_client_replace_resets_witness :
    (update_client
      [(⟨"7", "u", true, 9, 0, 8640000000, 0, 0, "f", "s", 0⟩ : XClient)]
      500 (⟨true, true, true, true⟩ : ApiOracle) "p" (⟨7, "u"⟩ : UserRec)
      2 30 true true).1 = true ∧
    ∃ c', find_client
        (update_client
          [(⟨"7", "u", true, 9, 0, 8640000000, 0, 0, "f", "s", 0⟩ : XClient)]
          500 (⟨true, true, true, true⟩ : ApiOracle) "p"
          (⟨7, "u"⟩ : UserRec) 2 30 true true).2 "7" = some c' ∧
      c'.limit_ip = 2 ∧ c'.expiry_time = 500 + 30 * 86400000 :=
  update_client_replace_resets
    [(⟨"7", "u", true, 9, 0, 8640000000, 0, 0, "f", "s", 0⟩ : XClient)]
    500 (⟨true, true, true, true⟩ : ApiOracle) "p" (⟨7, "u"⟩ : UserRec)
    2 30 (⟨"7", "u", true, 9, 0, 8640000000, 0, 0, "f", "s", 0⟩ : XClient)
    rfl rfl (by decide)

theorem apply_promocode_char (st : VState) (now : Int) (o : ApiOracle)
    (pfx : String) (uid : Int) (c : String) (p : Promocode)
    (hact : get_promocode st.promos c = some p) :
    ((apply_promocode st now o pfx uid c).1 = true ∧
      (apply_promocode st now o pfx uid c).2.promos =
        (use_promocode st.promos c).2 ∧
      (o.updateOk = true ∨ o.createOk = true)) ∨
    ((apply_promocode st now o pfx uid c).1 = false ∧
      (apply_promocode st now o pfx uid c).2.promos = st.promos) := by
  unfold apply_promocode
  rw [hact]
  cases hu : get_user st.users uid <;>
    (dsimp only
     cases hex : is_client_exists st.panel o uid
     · dsimp only
       cases hc : o.createOk
       · right
         constructor
         · simp [create_client_fst, hc]
         · simp [create_client_fst, hc]
       · left
         refine ⟨?_, ?_, Or.inr (by simp [hc])⟩
         · simp [create_client_fst, hc]
         · simp [create_client_fst, hc]
     · dsimp only
       split
       · next hr =>
         have hup := update_client_fst_imp_updateOk _ _ _ _ _ _ _ _ _ hr
         left
         exact ⟨rfl, rfl, Or.inl hup⟩
       · next hr =>
         right
         exact ⟨rfl, rfl⟩)

/-- Claim C3: when the code is active in the ledger, apply_promocode
consumes it exactly when the external create/update call succeeded: when
both external mutations fail the result is False; on a False result the
promo ledger is untouched and the code still looks up as active; on a
True result the ledger is persisted with the code deactivated and a
lookup returns None. -/
theorem apply_promocode_consume_iff (st : VState) (now : Int)
    (o : ApiOracle) (pfx : String) (uid : Int) (c : String) (p : Promocode)
    (hact : get_promocode st.promos c = some p)
    (hnd : (st.promos.map PromoRec.code).Nodup) :
    (o.updateOk = false → o.createOk = false →
      (apply_promocode st now o pfx uid c).1 = false) ∧
    ((apply_promocode st now o pfx uid c).1 = false →
      (apply_promocode st now o pfx uid c).2.promos = st.promos ∧
      get_promocode (apply_promocode st now o pfx uid c).2.promos c =
        some p) ∧
    ((apply_promocode st now o pfx uid c).1 = true →
      (apply_promocode st now o pfx uid c).2.promos =
        st.promos.map (markCode c) ∧
      get_promocode (apply_promocode st now o pfx uid c).2.promos c =
        none) := by
  have husefst : (use_promocode st.promos c).1 = true := by
    rw [use_promocode_fst_eq_any]
    exact get_promocode_some_any st.promos c p hact
  have husesnd := use_promocode_snd_of_some st.promos c hnd husefst
  rcases apply_promocode_char st now o pfx uid c p hact with
    ⟨hf, hp2, hok⟩ | ⟨hf, hp2⟩
  · refine ⟨?_, ?_, ?_⟩
    · intro h1 h2
      rcases hok with h | h
      · rw [h1] at h; exact absurd h (by simp)
      · rw [h2] at h; exact absurd h (by simp)
    · intro hfalse
      rw [hf] at hfalse
      exact absurd hfalse (by simp)
    · intro _
      rw [hp2, husesnd]
      exact ⟨rfl, get_promocode_map_markCode st.promos c⟩
  · refine ⟨fun _ _ => hf, ?_, ?_⟩
    · intro _
      refine ⟨hp2, ?_⟩
      rw [hp2]
      exact hact
    · intro htrue
      rw [hf] at htrue
      exact absurd htrue (by simp)

/-- Witness for C3 at a concrete input (create path, all external calls
succeeding): the promocode is consumed and no longer looks up. -/
theorem apply_promocode_consume_iff_witness :
    get_promocode [(⟨"A", 3, some true⟩ : PromoRec)] "A" =
      some (⟨"A", 3, true⟩ : Promocode) ∧
    ((apply_promocode
        (⟨[], [(⟨"A", 3, some true⟩ : PromoRec)], [], []⟩ : VState) 0
        (⟨true, true, true, true⟩ : ApiOracle) "p" 7 "A").1 = true →
      get_promocode
        (apply_promocode
          (⟨[], [(⟨"A", 3, some true⟩ : PromoRec)], [], []⟩ : VState) 0
          (⟨true, true, true, true⟩ : ApiOracle) "p" 7 "A").2.promos "A" =
        none) := by
  have h := apply_promocode_consume_iff
    (⟨[], [(⟨"A", 3, some true⟩ : PromoRec)], [], []⟩ : VState) 0
    (⟨true, true, true, true⟩ : ApiOracle) "p" 7 "A"
    (⟨"A", 3, true⟩ : Promocode) (by decide) (by simp)
  exact ⟨by decide, fun ht => (h.2.2 ht).2⟩

/-- Witness for C10 at a concrete input. -/
theorem promo_missing_active_defaults_true_witness :
    (⟨"A", 3, none⟩ : PromoRec) ∈ [(⟨"A", 3, none⟩ : PromoRec)] ∧
    get_promocode [(⟨"A", 3, none⟩ : PromoRec)] "A" =
      some (⟨"A", 3, true⟩ : Promocode) ∧
    (use_promocode [(⟨"A", 3, none⟩ : PromoRec)] "A").1 = true := by
  have h := promo_missing_active_defaults_true
    [(⟨"A", 3, none⟩ : PromoRec)] "A" (⟨"A", 3, none⟩ : PromoRec)
    (List.mem_singleton_self _) rfl rfl (by simp)
  exact ⟨List.mem_singleton_self _, h.1, h.2.1⟩

end VpnBot
